import Mathlib

/-!
Verification development for the NanoMail credential and sync engine.

The Rust sources are shallowly embedded: strings are lists of Unicode
code points (`List Char` for plaintext, `List Nat` of code points for
the on-disk token format), bytes are `Nat` values below 256, fallible
operations return `Except`, and the external primitives the code calls
into (OS machine identifier, Argon2, AES-256-GCM, the network, the
OAuth token endpoint) are parameters of the embedded functions.
-/


/-! ## Base64 (standard alphabet), mirroring the base64 crate engine
used by `src/config/crypto.rs`. Values are Unicode code points. -/


/-- Code point of the base64 character for a 6-bit group. -/
def base64EncChar (n : Nat) : Nat :=
  if n < 26 then 65 + n
  else if n < 52 then 97 + (n - 26)
  else if n < 62 then 48 + (n - 52)
  else if n = 62 then 43
  else 47

/-- Inverse table of `base64EncChar`; `none` on characters outside the
standard alphabet (in particular on the padding character 61). -/
def base64DecChar (c : Nat) : Option Nat :=
  if 65 ≤ c ∧ c ≤ 90 then some (c - 65)
  else if 97 ≤ c ∧ c ≤ 122 then some (c - 97 + 26)
  else if 48 ≤ c ∧ c ≤ 57 then some (c - 48 + 52)
  else if c = 43 then some 62
  else if c = 47 then some 63
  else none

/-- Standard base64 encoding of a byte list, with `=` (code 61) padding. -/
def base64Encode : List Nat → List Nat
  | [] => []
  | [b1] => [base64EncChar (b1 / 4), base64EncChar (b1 % 4 * 16), 61, 61]
  | [b1, b2] =>
      [base64EncChar (b1 / 4), base64EncChar (b1 % 4 * 16 + b2 / 16),
       base64EncChar (b2 % 16 * 4), 61]
  | b1 :: b2 :: b3 :: rest =>
      base64EncChar (b1 / 4) :: base64EncChar (b1 % 4 * 16 + b2 / 16) ::
      base64EncChar (b2 % 16 * 4 + b3 / 64) :: base64EncChar (b3 % 64) ::
      base64Encode rest

/-- Standard base64 decoding; fails on malformed input. -/
def base64Decode : List Nat → Option (List Nat)
  | [] => some []
  | c1 :: c2 :: c3 :: c4 :: rest =>
      (base64DecChar c1).bind fun s1 =>
      (base64DecChar c2).bind fun s2 =>
      if c3 = 61 then
        if c4 = 61 ∧ rest = [] then some [s1 * 4 + s2 / 16] else none
      else
        (base64DecChar c3).bind fun s3 =>
        if c4 = 61 then
          if rest = [] then
            some [s1 * 4 + s2 / 16, s2 % 16 * 16 + s3 / 4]
          else none
        else
          (base64DecChar c4).bind fun s4 =>
          (base64Decode rest).bind fun r =>
          some ((s1 * 4 + s2 / 16) :: (s2 % 16 * 16 + s3 / 4) ::
                (s3 % 4 * 64 + s4) :: r)
  | _ => none

/-! ## UTF-8 encoding of strings (`plain.as_bytes()` in Rust) and the
validating decoder (`String::from_utf8`). Plaintext strings are lists
of Unicode scalar values (`Char`). -/


/-- UTF-8 bytes of one Unicode scalar value. -/
def utf8EncodeChar (c : Char) : List Nat :=
  let n := c.toNat
  if n < 0x80 then [n]
  else if n < 0x800 then [0xC0 + n / 64, 0x80 + n % 64]
  else if n < 0x10000 then [0xE0 + n / 4096, 0x80 + n / 64 % 64, 0x80 + n % 64]
  else [0xF0 + n / 262144, 0x80 + n / 4096 % 64, 0x80 + n / 64 % 64, 0x80 + n % 64]

/-- UTF-8 byte sequence of a string. -/
def utf8Encode : List Char → List Nat
  | [] => []
  | c :: cs => utf8EncodeChar c ++ utf8Encode cs

/-- Completion of a 2-byte UTF-8 sequence: validates the continuation
byte and prepends the decoded scalar to the rest of the decoding. -/
def utf8Cont1 (b b2 : Nat) (r : Option (List Char)) : Option (List Char) :=
  if 0x80 ≤ b2 ∧ b2 < 0xC0 then
    r.map fun cs => Char.ofNat ((b - 0xC0) * 64 + (b2 - 0x80)) :: cs
  else none

/-- Completion of a 3-byte UTF-8 sequence. -/
def utf8Cont2 (b b2 b3 : Nat) (r : Option (List Char)) : Option (List Char) :=
  if (0x80 ≤ b2 ∧ b2 < 0xC0) ∧ (0x80 ≤ b3 ∧ b3 < 0xC0) then
    r.map fun cs =>
      Char.ofNat ((b - 0xE0) * 4096 + (b2 - 0x80) * 64 + (b3 - 0x80)) :: cs
  else none

/-- Completion of a 4-byte UTF-8 sequence. -/
def utf8Cont3 (b b2 b3 b4 : Nat) (r : Option (List Char)) : Option (List Char) :=
  if b < 0xF8 ∧ (0x80 ≤ b2 ∧ b2 < 0xC0) ∧ (0x80 ≤ b3 ∧ b3 < 0xC0) ∧
      (0x80 ≤ b4 ∧ b4 < 0xC0) then
    r.map fun cs =>
      Char.ofNat ((b - 0xF0) * 262144 + (b2 - 0x80) * 4096 +
        (b3 - 0x80) * 64 + (b4 - 0x80)) :: cs
  else none

/-- UTF-8 decoder; `none` on sequences that are not valid UTF-8. -/
def utf8Decode : List Nat → Option (List Char)
  | [] => some []
  | b :: bs =>
      if b < 0x80 then (utf8Decode bs).map fun cs => Char.ofNat b :: cs
      else if b < 0xC0 then none
      else if b < 0xE0 then
        match bs with
        | b2 :: bs2 => utf8Cont1 b b2 (utf8Decode bs2)
        | [] => none
      else if b < 0xF0 then
        match bs with
        | b2 :: bs2 =>
            match bs2 with
            | b3 :: bs3 => utf8Cont2 b b2 b3 (utf8Decode bs3)
            | [] => none
        | [] => none
      else
        match bs with
        | b2 :: bs2 =>
            match bs2 with
            | b3 :: bs3 =>
                match bs3 with
                | b4 :: bs4 => utf8Cont3 b b2 b3 b4 (utf8Decode bs4)
                | [] => none
            | [] => none
        | [] => none

/-! ## Key derivation (`src/utils/machine_id.rs`) and the token cipher
(`src/config/crypto.rs`). The OS registry read and the Argon2 crate are
external primitives, supplied through a `MachineEnv`; the AES-256-GCM
primitive of the aes-gcm crate is supplied through an `Aead` record
whose fields carry the correctness guarantees of that library. The
random 96-bit nonce drawn from `OsRng` is an explicit argument. -/

/-- Typed failure of the token cipher, one constructor per failing step
of `encrypt_token` / `decrypt_token`. -/
inductive CryptoErr where
  | keyDerivation
  | missingMarker
  | badBase64
  | tooShort
  | aeadOpenFail
  | badUtf8
deriving DecidableEq

/-- External machine identity and Argon2 primitive, fixed on a given
machine: `machineGuid` is the registry value
`HKLM\SOFTWARE\Microsoft\Cryptography\MachineGuid` as bytes (`none`
when unreadable) and `argon2Hash guid salt` is the Argon2id hash bytes. -/
structure MachineEnv where
  machineGuid : Option (List Nat)
  argon2Hash : List Nat → List Nat → List Nat

/-- Fixed salt bytes of `machine_id.rs`: the ASCII of `NanoMail.v1.2025`. -/
def FIXED_SALT : List Nat :=
  [78, 97, 110, 111, 77, 97, 105, 108, 46, 118, 49, 46, 50, 48, 50, 53]

/-- Reading of the machine GUID from the registry (`get_machine_guid`). -/
def get_machine_guid (env : MachineEnv) : Except CryptoErr (List Nat) :=
  match env.machineGuid with
  | some g => .ok g
  | none => .error .keyDerivation

/-- Derivation of the 256-bit key (`derive_encryption_key`): machine GUID
hashed by Argon2id with the fixed salt, first 32 bytes kept, failing when
the GUID is unreadable or the hash is shorter than 32 bytes. -/
def derive_encryption_key (env : MachineEnv) : Except CryptoErr (List Nat) :=
  match get_machine_guid env with
  | .error e => .error e
  | .ok guid =>
      let hash := env.argon2Hash guid FIXED_SALT
      if hash.length < 32 then .error .keyDerivation
      else .ok (hash.take 32)

/-- AES-256-GCM as provided by the aes-gcm crate: `seal key nonce plain`
is the ciphertext-plus-tag, `opn key nonce ct` authenticates and
decrypts. The two propositional fields are the correctness contract of
the library: opening a sealed message yields the message back, and
sealing bytes yields bytes. -/
structure Aead where
  sealOp : List Nat → List Nat → List Nat → List Nat
  openOp : List Nat → List Nat → List Nat → Option (List Nat)
  open_seal : ∀ k n p, openOp k n (sealOp k n p) = some p
  seal_lt : ∀ k n p, (∀ b ∈ p, b < 256) → ∀ b ∈ sealOp k n p, b < 256

/-- Nonce length in bytes (`NONCE_SIZE` in crypto.rs). -/
def NONCE_SIZE : Nat := 12

/-- Code points of the literal marker `encrypted:` that tags encrypted
values at rest (`ENCRYPTED_PREFIX` in crypto.rs). -/
def ENCRYPTED_MARKER : List Nat :=
  [101, 110, 99, 114, 121, 112, 116, 101, 100, 58]

/-- Embedding of `encrypt_token`: derive the key, seal the UTF-8 bytes
of the plaintext under the fresh nonce, prepend the nonce, base64-encode
and tag with the marker. -/
def encrypt_token (A : Aead) (env : MachineEnv) (nonce : List Nat)
    (plain : List Char) : Except CryptoErr (List Nat) :=
  match derive_encryption_key env with
  | .error e => .error e
  | .ok key =>
      let ciphertext := A.sealOp key nonce (utf8Encode plain)
      let combined := nonce ++ ciphertext
      .ok (ENCRYPTED_MARKER ++ base64Encode combined)

/-- Embedding of `is_encrypted`: a pure marker check. -/
def is_encrypted (s : List Nat) : Bool :=
  ENCRYPTED_MARKER.isPrefixOf s

/-- Embedding of `decrypt_token`: check the marker, base64-decode, check
the length against the nonce size, split off the nonce, derive the key,
open the ciphertext and decode the UTF-8 plaintext, failing at the first
step that rejects. -/
def decrypt_token (A : Aead) (env : MachineEnv) (encrypted : List Nat) :
    Except CryptoErr (List Char) :=
  if ¬ ENCRYPTED_MARKER.isPrefixOf encrypted then .error .missingMarker
  else
    match base64Decode (encrypted.drop ENCRYPTED_MARKER.length) with
    | none => .error .badBase64
    | some combined =>
        if combined.length < NONCE_SIZE then .error .tooShort
        else
          let nonce := combined.take NONCE_SIZE
          let ciphertext := combined.drop NONCE_SIZE
          match derive_encryption_key env with
          | .error e => .error e
          | .ok key =>
              match A.openOp key nonce ciphertext with
              | none => .error .aeadOpenFail
              | some plaintext =>
                  match utf8Decode plaintext with
                  | none => .error .badUtf8
                  | some s => .ok s

/-! ## The account entity (`src/mail/gmail/types.rs`) and flat-file
storage (`src/config/storage.rs`). Timestamps are seconds as `Int`
(`chrono::DateTime<Utc>` totally ordered); the current time is an
explicit argument wherever the source calls `Utc::now()`. The account
store is the list persisted in `accounts.toml`. -/

/-- Embedding of `GmailAccount`; the two token fields hold the
`encrypted:`-tagged representation produced by `encrypt_token`. -/
structure GmailAccount where
  email : String
  display_name : String
  access_token : List Nat
  refresh_token : List Nat
  expires_at : Int
  is_active : Bool
deriving DecidableEq

/-- Embedding of `GmailAccount::decrypt_access_token`. -/
def GmailAccount.decrypt_access_token (A : Aead) (env : MachineEnv)
    (acc : GmailAccount) : Except CryptoErr (List Char) :=
  decrypt_token A env acc.access_token

/-- Embedding of `GmailAccount::decrypt_refresh_token`. -/
def GmailAccount.decrypt_refresh_token (A : Aead) (env : MachineEnv)
    (acc : GmailAccount) : Except CryptoErr (List Char) :=
  decrypt_token A env acc.refresh_token

/-- Embedding of `GmailAccount::is_token_expiring`: true iff
`expires_at ≤ now + threshold_minutes` minutes. -/
def GmailAccount.is_token_expiring (acc : GmailAccount)
    (threshold_minutes : Int) (now : Int) : Bool :=
  acc.expires_at ≤ now + threshold_minutes * 60

/-- Embedding of `GmailAccount::update_access_token`: re-encrypt the new
token under a fresh nonce and recompute `expires_at` from the supplied
time-to-live. -/
def GmailAccount.update_access_token (A : Aead) (env : MachineEnv)
    (nonce : List Nat) (acc : GmailAccount) (new_token : List Char)
    (expires_in_seconds : Int) (now : Int) : Except CryptoErr GmailAccount :=
  match encrypt_token A env nonce new_token with
  | .error e => .error e
  | .ok enc =>
      .ok { acc with access_token := enc, expires_at := now + expires_in_seconds }

/-- Embedding of `storage::save_account` acting on the loaded account
list: replace the first record with the same email, or append when the
email is not present (the list is then written back as a whole). -/
def save_account (account : GmailAccount) : List GmailAccount → List GmailAccount
  | [] => [account]
  | a :: rest =>
      if a.email = account.email then account :: rest
      else a :: save_account account rest

/-! ## The token manager (`src/mail/gmail/token.rs`). The provider token
endpoint is external; one call to it is embedded as an
`Except RefreshError (List Char × Option Int)`: either a classified
failure or the new plaintext access token with its optional
`expires_in`. Mutation of `self.account` is embedded by returning the
new account (unchanged on every error path), and persistence by
returning the new stored list. -/

/-- Refresh threshold constant of token.rs. -/
def REFRESH_THRESHOLD_MINUTES : Int := 5

/-- Failure of the refresh exchange as classified by
`refresh_access_token`: an invalid-grant / 401 response, or any other
(network, 5xx) failure. -/
inductive RefreshError where
  | invalidGrant
  | other
deriving DecidableEq

/-- Error type of the token manager operations. -/
inductive TokenError where
  | crypto (e : CryptoErr)
  | refreshFailed (e : RefreshError)
deriving DecidableEq

/-- Embedding of `TokenManager::refresh_access_token`: decrypt the
stored refresh token, perform the exchange, and on success re-encrypt
the new access token, recompute the expiry and persist the account; on
every failure the account and the store are returned unchanged. -/
def refresh_access_token (A : Aead) (env : MachineEnv) (nonce : List Nat)
    (now : Int) (endpoint : Except RefreshError (List Char × Option Int))
    (acc : GmailAccount) (stored : List GmailAccount) :
    Except TokenError Unit × GmailAccount × List GmailAccount :=
  match acc.decrypt_refresh_token A env with
  | .error e => (.error (.crypto e), acc, stored)
  | .ok _refresh_token =>
      match endpoint with
      | .error e => (.error (.refreshFailed e), acc, stored)
      | .ok (new_access_token, expires_in_opt) =>
          let expires_in : Int := expires_in_opt.getD 3600
          match acc.update_access_token A env nonce new_access_token expires_in now with
          | .error e => (.error (.crypto e), acc, stored)
          | .ok acc2 => (.ok (), acc2, save_account acc2 stored)

/-- Embedding of `TokenManager::get_valid_token`: refresh first when the
token is within the threshold of expiry, then decrypt and return the
(possibly new) stored access token. The final component records whether
a refresh was performed. -/
def get_valid_token (A : Aead) (env : MachineEnv) (nonce : List Nat)
    (now : Int) (endpoint : Except RefreshError (List Char × Option Int))
    (acc : GmailAccount) (stored : List GmailAccount) :
    Except TokenError (List Char) × GmailAccount × List GmailAccount × Bool :=
  if acc.is_token_expiring REFRESH_THRESHOLD_MINUTES now then
    match refresh_access_token A env nonce now endpoint acc stored with
    | (.error e, acc2, stored2) => (.error e, acc2, stored2, true)
    | (.ok _, acc2, stored2) =>
        (match acc2.decrypt_access_token A env with
         | .error e => .error (.crypto e)
         | .ok tok => .ok tok, acc2, stored2, true)
  else
    ((match acc.decrypt_access_token A env with
      | .error e => .error (.crypto e)
      | .ok tok => .ok tok), acc, stored, false)

/-! ## The authorization flow (`src/mail/gmail/oauth.rs`). -/

/-- Environment configuration consumed by the flow (client identifier
and secret are irrelevant to the embedded properties but kept for
shape). -/
structure OAuthConfig where
  client_id : String
  client_secret : String

/-- Candidate loopback ports of oauth.rs, the range `8080..8090`
iterated in order. -/
def PORT_RANGE : List Nat :=
  [8080, 8081, 8082, 8083, 8084, 8085, 8086, 8087, 8088, 8089]

/-- Embedding of `try_build_auth_url`: constructs the OAuth client and
the authorization URL for the given port. Every step is an infallible
URL constructor on constant endpoint strings and
`http://localhost:{port}`, so the result is always `ok` with the given
port; no socket is opened here. -/
def try_build_auth_url (_config : OAuthConfig) (port : Nat) : Except String Nat :=
  .ok port

/-- Loop body of `build_auth_url` over the port range, keeping the last
error. -/
def build_auth_url_loop (config : OAuthConfig) :
    List Nat → Option String → Except String Nat
  | [], lastErr => .error (lastErr.getD "all ports occupied")
  | p :: rest, _lastErr =>
      match try_build_auth_url config p with
      | .ok r => .ok r
      | .error e => build_auth_url_loop config rest (some e)

/-- Embedding of `build_auth_url`: first port of the range for which
`try_build_auth_url` succeeds. -/
def build_auth_url (config : OAuthConfig) : Except String Nat :=
  build_auth_url_loop config PORT_RANGE none

/-- Embedding of the bind step of `start_local_server`: `Server::http`
on `127.0.0.1:{port}` fails iff the port is occupied; `occupied` is the
state of the host. -/
def start_local_server (occupied : Nat → Bool) (port : Nat) : Except String Nat :=
  if occupied port then .error "bind failed: port occupied"
  else .ok port

/-- Port on which `authenticate` ends up listening: the port selected by
`build_auth_url` handed to `start_local_server`. -/
def authenticate_listener_port (config : OAuthConfig) (occupied : Nat → Bool) :
    Except String Nat :=
  match build_auth_url config with
  | .error e => .error e
  | .ok port => start_local_server occupied port

/-- Behavior stated by the specification for port selection (for
comparison with the embedded code): the first port of the range that is
not occupied, `none` when all are occupied. -/
def spec_first_free_port (occupied : Nat → Bool) : Option Nat :=
  PORT_RANGE.find? fun p => ! occupied p

/-- Terminal failures of the callback-validation step of `authenticate`. -/
inductive AuthError where
  | csrfMismatch
  | exchangeFailed
deriving DecidableEq

/-- Embedding of steps 6 and 7 of `authenticate`: after the callback
delivered `received_state` and `code`, the CSRF state is compared by
exact string equality and only on a match is the token exchange
invoked. The boolean records whether the exchange step was reached. -/
def authenticate_after_callback (csrf_state received_state code : String)
    (exchange : String → Except Unit String) : Except AuthError String × Bool :=
  if received_state ≠ csrf_state then (.error .csrfMismatch, false)
  else
    match exchange code with
    | .ok tok => (.ok tok, true)
    | .error _ => (.error .exchangeFailed, true)

/-! ## The network probe (`ensure_network_available` in
`src/mail/gmail/api.rs`). One probe attempt is abstracted as a boolean
outcome (HTTP success status within the timeout); `probe i` is the
outcome of the i-th attempt, counting from 1. The loop result carries
the `had_failure` flag, the list of back-off sleeps performed (seconds)
and the number of attempts made. -/

/-- Attempt ceiling of the probe loop (`MAX_ATTEMPTS`). -/
def MAX_ATTEMPTS : Nat := 4

/-- Loop of `ensure_network_available`: attempt, then either return
success, give up at the ceiling, or sleep `delay` seconds and retry
with the delay doubled and capped at 30. -/
def netLoop (probe : Nat → Bool) (attempt delay : Nat) (had : Bool) :
    Except Unit Bool × List Nat × Nat :=
  let attempt2 := attempt + 1
  if probe attempt2 then (.ok had, [], 1)
  else if attempt2 ≥ MAX_ATTEMPTS then (.error (), [], 1)
  else
    let r := netLoop probe attempt2 (min (delay * 2) 30) true
    (r.1, delay :: r.2.1, r.2.2 + 1)
termination_by MAX_ATTEMPTS - attempt
decreasing_by unfold MAX_ATTEMPTS at *; omega

/-- Embedding of `ensure_network_available`: the loop entered with
attempt counter 0, initial delay 1 second and no failure seen. -/
def ensure_network_available (probe : Nat → Bool) :
    Except Unit Bool × List Nat × Nat :=
  netLoop probe 0 1 false

/-! ## One sync cycle (`sync_account_info` in api.rs and the account
loop of `SyncEngine::start` in `src/sync/mod.rs`). For each account the
cycle calls `sync_account_info`, which begins with its own
`ensure_network_available` probe and then performs the token and API
work; that latter part is abstracted as a per-account outcome. A
network-unavailable failure emits the error callback for that account
and breaks out of the loop (the string test
`err_str.contains("网络不可用")` in sync/mod.rs matches exactly the
probe-failure error). -/

/-- Ephemeral per-account sync result (`AccountSyncInfo`). -/
structure AccountSyncInfo where
  email : String
  unread_count : Nat
  avatar_url : String
  display_name : String
  error_message : Option String
  network_issue : Bool
deriving DecidableEq

/-- Failure of one account sync as discriminated by the cycle loop. -/
inductive SyncError where
  | networkUnavailable
  | accountError
deriving DecidableEq

/-- Embedding of `sync_account_info`: run the network probe first and
abort on probe failure; otherwise perform the token refresh and API
portion (supplied as `rest`) and record in the result whether any probe
attempt failed before the eventual success. -/
def sync_account_info (probe : Nat → Bool)
    (rest : Except Unit (AccountSyncInfo × Option GmailAccount))
    (_acc : GmailAccount) : Except SyncError (AccountSyncInfo × Option GmailAccount) :=
  match (ensure_network_available probe).1 with
  | .error () => .error .networkUnavailable
  | .ok hadIssue =>
      match rest with
      | .error () => .error .accountError
      | .ok (info, upd) => .ok ({ info with network_issue := hadIssue }, upd)

/-- Per-account environment of one cycle: the probe outcomes seen by the
call of `sync_account_info` for this account, and the outcome of its
token-and-API portion. -/
structure AccountEnv where
  probe : Nat → Bool
  rest : Except Unit (AccountSyncInfo × Option GmailAccount)

/-- Embedding of the account loop of one periodic sync cycle: process
accounts in order, emit one callback per processed account, and break
out of the loop right after the callback when the failure is the
network-unavailable one. The second component counts the calls of
`sync_account_info` (hence of the network probe). -/
def sync_cycle : List (GmailAccount × AccountEnv) →
    List (String × Except SyncError AccountSyncInfo) × Nat
  | [] => ([], 0)
  | (acc, e) :: more =>
      match sync_account_info e.probe e.rest acc with
      | .ok (info, _upd) =>
          let r := sync_cycle more
          ((acc.email, .ok info) :: r.1, r.2 + 1)
      | .error .networkUnavailable =>
          ([(acc.email, .error .networkUnavailable)], 1)
      | .error .accountError =>
          let r := sync_cycle more
          ((acc.email, .error .accountError) :: r.1, r.2 + 1)

/-! ## The sync engine running flag (`SyncEngine` in sync/mod.rs). The
engine state is the shared running flag together with the number of
periodic loop tasks spawned so far by `start`. -/

/-- Observable state of a `SyncEngine` instance. -/
structure SyncEngineState where
  running : Bool
  spawned : Nat
deriving DecidableEq

/-- State produced by `SyncEngine::new`. -/
def SyncEngineState.new : SyncEngineState :=
  { running := false, spawned := 0 }

/-- Embedding of `SyncEngine::start`: when the running flag is already
set, warn and return without touching anything; otherwise set the flag
and spawn the periodic loop task. -/
def SyncEngineState.start (e : SyncEngineState) : SyncEngineState :=
  if e.running then e
  else { running := true, spawned := e.spawned + 1 }

/-! ## Concrete instances used to evaluate the embedded operations on
closed inputs. -/

/-- AEAD instance whose seal is the identity (a correct, if unhiding,
authenticated scheme) for evaluating closed instances. -/
def trivAead : Aead where
  sealOp := fun _ _ p => p
  openOp := fun _ _ c => some c
  open_seal := fun _ _ _ => rfl
  seal_lt := fun _ _ _ h => h

/-- Machine environment with a readable GUID and a 32-byte hash. -/
def trivEnv : MachineEnv where
  machineGuid := some [1, 2, 3]
  argon2Hash := fun _ _ => List.replicate 32 7

/-- The key `trivEnv` derives. -/
def trivKey : List Nat := List.replicate 32 7

/-- A 12-byte nonce of zeros. -/
def nonceA : List Nat := List.replicate 12 0

/-- A second 12-byte nonce, distinct from `nonceA`. -/
def nonceB : List Nat := 1 :: List.replicate 11 0

/-- Configuration instance for the flow models. -/
def cexConfig : OAuthConfig :=
  { client_id := "client", client_secret := "secret" }

/-- Host state in which port 8080 is occupied and 8081 is free. -/
def occupied8080 : Nat → Bool := fun p => p == 8080

/-- Sample accounts and sync inputs. -/
def accA : GmailAccount :=
  { email := "a@gmail.com", display_name := "A", access_token := [0],
    refresh_token := [1], expires_at := 0, is_active := true }

def accB : GmailAccount :=
  { email := "b@gmail.com", display_name := "B", access_token := [2],
    refresh_token := [3], expires_at := 0, is_active := true }

def infoA : AccountSyncInfo :=
  { email := "a@gmail.com", unread_count := 1, avatar_url := "",
    display_name := "A", error_message := none, network_issue := false }

def infoB : AccountSyncInfo :=
  { email := "b@gmail.com", unread_count := 2, avatar_url := "",
    display_name := "B", error_message := none, network_issue := false }

/-- Account environment whose probe always succeeds and whose API work
succeeds. -/
def goodEnvA : AccountEnv := { probe := fun _ => true, rest := .ok (infoA, none) }

def goodEnvB : AccountEnv := { probe := fun _ => true, rest := .ok (infoB, none) }

/-- Account environment whose probe always fails. -/
def deadEnv : AccountEnv := { probe := fun _ => false, rest := .ok (infoA, none) }

/-- A cycle input with two healthy accounts. -/
def twoGoodAccounts : List (GmailAccount × AccountEnv) :=
  [(accA, goodEnvA), (accB, goodEnvB)]

/-- Account whose stored refresh token is a valid encrypted value (the
encryption of the one-character string `r` under `trivEnv`/`nonceA`) and
whose access token expires at time 0. -/
def accExp : GmailAccount :=
  { email := "e@gmail.com", display_name := "E", access_token := [0],
    refresh_token := ENCRYPTED_MARKER ++ base64Encode (nonceA ++ utf8Encode ['r']),
    expires_at := 0, is_active := true }

theorem base64DecChar_encChar (n : Nat) (h : n < 64) :
    base64DecChar (base64EncChar n) = some n := by
  unfold base64EncChar base64DecChar
  split_ifs <;> first
    | (simp only [Option.some.injEq]; omega)
    | (exfalso; omega)

theorem base64EncChar_ne_pad (n : Nat) (h : n < 64) :
    base64EncChar n ≠ 61 := by
  unfold base64EncChar
  split_ifs <;> omega

theorem base64Decode_encode (bs : List Nat) (h : ∀ b ∈ bs, b < 256) :
    base64Decode (base64Encode bs) = some bs := by
  induction bs using base64Encode.induct with
  | case1 => simp [base64Encode, base64Decode]
  | case2 b1 =>
      have hb1 : b1 < 256 := h b1 (by simp)
      rw [base64Encode, base64Decode]
      rw [base64DecChar_encChar _ (by omega), base64DecChar_encChar _ (by omega)]
      simp only [Option.some_bind, and_self, eq_self_iff_true, if_true,
        List.cons.injEq, Option.some.injEq, List.nil_eq, and_true]
      omega
  | case3 b1 b2 =>
      have hb1 : b1 < 256 := h b1 (by simp)
      have hb2 : b2 < 256 := h b2 (by simp)
      rw [base64Encode, base64Decode]
      rw [base64DecChar_encChar _ (by omega), base64DecChar_encChar _ (by omega)]
      simp only [Option.some_bind]
      rw [if_neg (base64EncChar_ne_pad _ (by omega))]
      rw [base64DecChar_encChar _ (by omega)]
      simp only [Option.some_bind, and_self, eq_self_iff_true, if_true,
        List.cons.injEq, Option.some.injEq, List.nil_eq, and_true]
      omega
  | case4 b1 b2 b3 rest ih =>
      have hb1 : b1 < 256 := h b1 (by simp)
      have hb2 : b2 < 256 := h b2 (by simp)
      have hb3 : b3 < 256 := h b3 (by simp)
      have hrest : ∀ b ∈ rest, b < 256 := fun b hb => h b (by simp [hb])
      rw [base64Encode, base64Decode]
      rw [base64DecChar_encChar _ (by omega), base64DecChar_encChar _ (by omega)]
      simp only [Option.some_bind]
      rw [if_neg (base64EncChar_ne_pad _ (by omega))]
      rw [base64DecChar_encChar _ (by omega)]
      simp only [Option.some_bind]
      rw [if_neg (base64EncChar_ne_pad _ (by omega))]
      rw [base64DecChar_encChar _ (by omega), ih hrest]
      simp only [Option.some_bind, Option.some.injEq, List.cons.injEq, and_true]
      omega

theorem Char.toNat_lt_limit (c : Char) : c.toNat < 1114112 := by
  have h := c.valid
  unfold UInt32.isValidChar Nat.isValidChar at h
  unfold Char.toNat
  rcases h with h | h
  · omega
  · exact h.2

theorem utf8EncodeChar_lt_256 (c : Char) : ∀ b ∈ utf8EncodeChar c, b < 256 := by
  have hlim := Char.toNat_lt_limit c
  intro b hb
  simp only [utf8EncodeChar] at hb
  split_ifs at hb <;> simp only [List.mem_cons, List.mem_singleton,
    List.not_mem_nil, or_false] at hb <;> omega

theorem utf8Encode_lt_256 (s : List Char) : ∀ b ∈ utf8Encode s, b < 256 := by
  induction s with
  | nil => intro b hb; simp [utf8Encode] at hb
  | cons c cs ih =>
      intro b hb
      rw [utf8Encode, List.mem_append] at hb
      rcases hb with hb | hb
      · exact utf8EncodeChar_lt_256 c b hb
      · exact ih b hb

theorem utf8Decode_encode (s : List Char) :
    utf8Decode (utf8Encode s) = some s := by
  induction s with
  | nil => rfl
  | cons c cs ih =>
      have hlim := Char.toNat_lt_limit c
      rw [utf8Encode]
      rcases Nat.lt_or_ge c.toNat 0x80 with h1 | h1
      · simp only [utf8EncodeChar]
        rw [if_pos h1]
        simp only [List.singleton_append]
        rw [utf8Decode.eq_def]
        simp only []
        rw [if_pos h1, ih]
        simp [Char.ofNat_toNat]
      rcases Nat.lt_or_ge c.toNat 0x800 with h2 | h2
      · simp only [utf8EncodeChar]
        rw [if_neg (by omega : ¬ (c.toNat < 0x80)), if_pos h2]
        simp only [List.cons_append, List.nil_append]
        rw [utf8Decode.eq_def]
        simp only []
        rw [if_neg (by omega : ¬ (0xC0 + c.toNat / 64 < 0x80))]
        rw [if_neg (by omega : ¬ (0xC0 + c.toNat / 64 < 0xC0))]
        rw [if_pos (by omega : 0xC0 + c.toNat / 64 < 0xE0)]
        rw [ih, utf8Cont1]
        rw [if_pos (by omega :
          0x80 ≤ 0x80 + c.toNat % 64 ∧ 0x80 + c.toNat % 64 < 0xC0)]
        have harith : (0xC0 + c.toNat / 64 - 0xC0) * 64 + (0x80 + c.toNat % 64 - 0x80)
            = c.toNat := by omega
        rw [harith]
        simp [Char.ofNat_toNat]
      rcases Nat.lt_or_ge c.toNat 0x10000 with h3 | h3
      · simp only [utf8EncodeChar]
        rw [if_neg (by omega : ¬ (c.toNat < 0x80)),
          if_neg (by omega : ¬ (c.toNat < 0x800)), if_pos h3]
        simp only [List.cons_append, List.nil_append]
        rw [utf8Decode.eq_def]
        simp only []
        rw [if_neg (by omega : ¬ (0xE0 + c.toNat / 4096 < 0x80))]
        rw [if_neg (by omega : ¬ (0xE0 + c.toNat / 4096 < 0xC0))]
        rw [if_neg (by omega : ¬ (0xE0 + c.toNat / 4096 < 0xE0))]
        rw [if_pos (by omega : 0xE0 + c.toNat / 4096 < 0xF0)]
        rw [ih, utf8Cont2]
        rw [if_pos (by omega :
          (0x80 ≤ 0x80 + c.toNat / 64 % 64 ∧ 0x80 + c.toNat / 64 % 64 < 0xC0) ∧
          (0x80 ≤ 0x80 + c.toNat % 64 ∧ 0x80 + c.toNat % 64 < 0xC0))]
        have harith : (0xE0 + c.toNat / 4096 - 0xE0) * 4096 +
            (0x80 + c.toNat / 64 % 64 - 0x80) * 64 + (0x80 + c.toNat % 64 - 0x80)
            = c.toNat := by omega
        rw [harith]
        simp [Char.ofNat_toNat]
      · simp only [utf8EncodeChar]
        rw [if_neg (by omega : ¬ (c.toNat < 0x80)),
          if_neg (by omega : ¬ (c.toNat < 0x800)),
          if_neg (by omega : ¬ (c.toNat < 0x10000))]
        simp only [List.cons_append, List.nil_append]
        rw [utf8Decode.eq_def]
        simp only []
        rw [if_neg (by omega : ¬ (0xF0 + c.toNat / 262144 < 0x80))]
        rw [if_neg (by omega : ¬ (0xF0 + c.toNat / 262144 < 0xC0))]
        rw [if_neg (by omega : ¬ (0xF0 + c.toNat / 262144 < 0xE0))]
        rw [if_neg (by omega : ¬ (0xF0 + c.toNat / 262144 < 0xF0))]
        rw [ih, utf8Cont3]
        rw [if_pos (by omega : 0xF0 + c.toNat / 262144 < 0xF8 ∧
          (0x80 ≤ 0x80 + c.toNat / 4096 % 64 ∧ 0x80 + c.toNat / 4096 % 64 < 0xC0) ∧
          (0x80 ≤ 0x80 + c.toNat / 64 % 64 ∧ 0x80 + c.toNat / 64 % 64 < 0xC0) ∧
          (0x80 ≤ 0x80 + c.toNat % 64 ∧ 0x80 + c.toNat % 64 < 0xC0))]
        have harith : (0xF0 + c.toNat / 262144 - 0xF0) * 262144 +
            (0x80 + c.toNat / 4096 % 64 - 0x80) * 4096 +
            (0x80 + c.toNat / 64 % 64 - 0x80) * 64 + (0x80 + c.toNat % 64 - 0x80)
            = c.toNat := by omega
        rw [harith]
        simp [Char.ofNat_toNat]

/-- Helper: on a machine where key derivation succeeds, decrypting what
`encrypt_token` produced under a well-formed fresh nonce yields the
plaintext back; the encrypted form is the marker followed by the base64
of nonce-plus-ciphertext. -/
theorem decrypt_token_encrypt_token (A : Aead) (env : MachineEnv)
    (key nonce : List Nat) (plain : List Char)
    (hkey : derive_encryption_key env = .ok key)
    (hlen : nonce.length = NONCE_SIZE)
    (hbytes : ∀ b ∈ nonce, b < 256) :
    encrypt_token A env nonce plain =
      .ok (ENCRYPTED_MARKER ++
        base64Encode (nonce ++ A.sealOp key nonce (utf8Encode plain))) ∧
    decrypt_token A env
      (ENCRYPTED_MARKER ++
        base64Encode (nonce ++ A.sealOp key nonce (utf8Encode plain))) =
      .ok plain := by
  constructor
  · unfold encrypt_token
    rw [hkey]
  · unfold decrypt_token
    have hpre : ENCRYPTED_MARKER.isPrefixOf (ENCRYPTED_MARKER ++
        base64Encode (nonce ++ A.sealOp key nonce (utf8Encode plain))) := by
      rw [List.isPrefixOf_iff_prefix]
      exact List.prefix_append _ _
    rw [if_neg (not_not_intro hpre)]
    rw [List.drop_left]
    have hcb : ∀ b ∈ nonce ++ A.sealOp key nonce (utf8Encode plain), b < 256 := by
      intro b hb
      rcases List.mem_append.mp hb with hb | hb
      · exact hbytes b hb
      · exact A.seal_lt _ _ _ (utf8Encode_lt_256 plain) b hb
    rw [base64Decode_encode _ hcb]
    simp only []
    rw [if_neg (by rw [List.length_append, hlen]; unfold NONCE_SIZE; omega :
      ¬ (nonce ++ A.sealOp key nonce (utf8Encode plain)).length < NONCE_SIZE)]
    rw [← hlen, List.take_left, List.drop_left, hkey]
    simp only []
    rw [A.open_seal]
    simp only []
    rw [utf8Decode_encode]

/-- C1: for every UTF-8 string `s`, on a machine where key derivation
succeeds (so both calls derive the same 32-byte key), decrypting the
output of `encrypt_token s` under any well-formed fresh nonce succeeds
and returns exactly `s`. -/
theorem C1_encrypt_decrypt_roundtrip (A : Aead) (env : MachineEnv)
    (key nonce : List Nat) (s : List Char)
    (hkey : derive_encryption_key env = .ok key)
    (hlen : nonce.length = NONCE_SIZE)
    (hbytes : ∀ b ∈ nonce, b < 256) :
    ∃ e, encrypt_token A env nonce s = .ok e ∧ decrypt_token A env e = .ok s :=
  ⟨_, (decrypt_token_encrypt_token A env key nonce s hkey hlen hbytes).1,
      (decrypt_token_encrypt_token A env key nonce s hkey hlen hbytes).2⟩

/-- Witness for C1 on closed inputs. -/
theorem C1_encrypt_decrypt_roundtrip_witness :
    ∃ e, encrypt_token trivAead trivEnv nonceA ['h', 'i'] = .ok e ∧
      decrypt_token trivAead trivEnv e = .ok ['h', 'i'] :=
  C1_encrypt_decrypt_roundtrip trivAead trivEnv trivKey nonceA ['h', 'i']
    rfl rfl (by decide)

/-- Helper: base64 encoding is injective on byte lists. -/
theorem base64Encode_inj (l1 l2 : List Nat) (h1 : ∀ b ∈ l1, b < 256)
    (h2 : ∀ b ∈ l2, b < 256) (he : base64Encode l1 = base64Encode l2) :
    l1 = l2 := by
  have d1 := base64Decode_encode l1 h1
  have d2 := base64Decode_encode l2 h2
  rw [he, d2] at d1
  exact (Option.some.inj d1).symm

/-- C4: two calls of `encrypt_token` on the same plaintext with the two
distinct fresh nonces produce different output strings, and both decrypt
back to the plaintext. -/
theorem C4_fresh_nonce_distinct_ciphertexts (A : Aead) (env : MachineEnv)
    (key n1 n2 : List Nat) (s : List Char)
    (hkey : derive_encryption_key env = .ok key)
    (h1l : n1.length = NONCE_SIZE) (h2l : n2.length = NONCE_SIZE)
    (h1b : ∀ b ∈ n1, b < 256) (h2b : ∀ b ∈ n2, b < 256)
    (hne : n1 ≠ n2) :
    ∃ e1 e2, encrypt_token A env n1 s = .ok e1 ∧
      encrypt_token A env n2 s = .ok e2 ∧ e1 ≠ e2 ∧
      decrypt_token A env e1 = .ok s ∧ decrypt_token A env e2 = .ok s := by
  obtain ⟨he1, hd1⟩ := decrypt_token_encrypt_token A env key n1 s hkey h1l h1b
  obtain ⟨he2, hd2⟩ := decrypt_token_encrypt_token A env key n2 s hkey h2l h2b
  refine ⟨_, _, he1, he2, ?_, hd1, hd2⟩
  intro heq
  have h3 := List.append_cancel_left heq
  have hbytes1 : ∀ b ∈ n1 ++ A.sealOp key n1 (utf8Encode s), b < 256 := by
    intro b hb
    rcases List.mem_append.mp hb with hb | hb
    · exact h1b b hb
    · exact A.seal_lt _ _ _ (utf8Encode_lt_256 s) b hb
  have hbytes2 : ∀ b ∈ n2 ++ A.sealOp key n2 (utf8Encode s), b < 256 := by
    intro b hb
    rcases List.mem_append.mp hb with hb | hb
    · exact h2b b hb
    · exact A.seal_lt _ _ _ (utf8Encode_lt_256 s) b hb
  have h4 := base64Encode_inj _ _ hbytes1 hbytes2 h3
  have hL : (n1 ++ A.sealOp key n1 (utf8Encode s)).take NONCE_SIZE = n1 := by
    rw [← h1l, List.take_left]
  have hR : (n2 ++ A.sealOp key n2 (utf8Encode s)).take NONCE_SIZE = n2 := by
    rw [← h2l, List.take_left]
  have h5 := congrArg (List.take NONCE_SIZE) h4
  rw [hL, hR] at h5
  exact hne h5

/-- Witness for C4 on closed inputs. -/
theorem C4_fresh_nonce_distinct_ciphertexts_witness :
    ∃ e1 e2, encrypt_token trivAead trivEnv nonceA ['o', 'k'] = .ok e1 ∧
      encrypt_token trivAead trivEnv nonceB ['o', 'k'] = .ok e2 ∧ e1 ≠ e2 ∧
      decrypt_token trivAead trivEnv e1 = .ok ['o', 'k'] ∧
      decrypt_token trivAead trivEnv e2 = .ok ['o', 'k'] :=
  C4_fresh_nonce_distinct_ciphertexts trivAead trivEnv trivKey nonceA nonceB
    ['o', 'k'] rfl rfl rfl (by decide) (by decide) (by decide)

/-- C3: when the refresh exchange with the token endpoint fails, with
invalid-grant or any other error, `refresh_access_token` returns an
error and both the account (its encrypted access token, encrypted
refresh token and expiry) and the stored list are unchanged. -/
theorem C3_refresh_failure_no_mutation (A : Aead) (env : MachineEnv)
    (nonce : List Nat) (now : Int) (err : RefreshError)
    (acc : GmailAccount) (stored : List GmailAccount) :
    ∃ e, refresh_access_token A env nonce now (.error err) acc stored =
      (.error e, acc, stored) := by
  unfold refresh_access_token
  cases h : acc.decrypt_refresh_token A env with
  | error e => exact ⟨.crypto e, by simp [h]⟩
  | ok rt => exact ⟨.refreshFailed err, by simp [h]⟩

/-- C2: `get_valid_token` performs a refresh exactly when the stored
expiry lies within the 5-minute threshold of the current time; when the
token is not expiring it returns the decryption of the currently stored
token with account and store untouched; when it is expiring and the
endpoint succeeds it returns the new plaintext token. -/
theorem C2_get_valid_token_spec (A : Aead) (env : MachineEnv)
    (key nonce : List Nat) (now : Int)
    (endpoint : Except RefreshError (List Char × Option Int))
    (acc : GmailAccount) (stored : List GmailAccount)
    (hkey : derive_encryption_key env = .ok key)
    (hlen : nonce.length = NONCE_SIZE)
    (hbytes : ∀ b ∈ nonce, b < 256) :
    (get_valid_token A env nonce now endpoint acc stored).2.2.2 =
      acc.is_token_expiring REFRESH_THRESHOLD_MINUTES now ∧
    (acc.is_token_expiring REFRESH_THRESHOLD_MINUTES now = false →
      (get_valid_token A env nonce now endpoint acc stored).2.1 = acc ∧
      (get_valid_token A env nonce now endpoint acc stored).2.2.1 = stored ∧
      ∀ t, acc.decrypt_access_token A env = .ok t →
        (get_valid_token A env nonce now endpoint acc stored).1 = .ok t) ∧
    (acc.is_token_expiring REFRESH_THRESHOLD_MINUTES now = true →
      ∀ rt newTok ttl, acc.decrypt_refresh_token A env = .ok rt →
        endpoint = .ok (newTok, ttl) →
        (get_valid_token A env nonce now endpoint acc stored).1 = .ok newTok) := by
  cases hexp : acc.is_token_expiring REFRESH_THRESHOLD_MINUTES now with
  | false =>
      have hred : get_valid_token A env nonce now endpoint acc stored =
          ((match acc.decrypt_access_token A env with
            | .error e => .error (.crypto e)
            | .ok tok => .ok tok), acc, stored, false) := by
        simp only [get_valid_token, hexp, Bool.false_eq_true, if_false]
      refine ⟨?_, fun _ => ⟨?_, ?_, fun t ht => ?_⟩,
        fun hc => absurd hc (by simp)⟩
      · rw [hred]
      · rw [hred]
      · rw [hred]
      · rw [hred]
        simp only [ht]
  | true =>
      refine ⟨?_, fun hc => absurd hc (by simp), fun _ => ?_⟩
      · simp only [get_valid_token, hexp, if_true]
        rcases refresh_access_token A env nonce now endpoint acc stored with
          ⟨res, acc2, stored2⟩
        cases res <;> rfl
      · intro rt newTok ttl hrt hend
        subst hend
        have henc := (decrypt_token_encrypt_token A env key nonce newTok hkey hlen hbytes).1
        have hdec := (decrypt_token_encrypt_token A env key nonce newTok hkey hlen hbytes).2
        simp only [get_valid_token, hexp, if_true, refresh_access_token, hrt,
          GmailAccount.update_access_token, henc, GmailAccount.decrypt_access_token]
        simp only [hdec]

/-- Witness for C2 on closed inputs: the stored token of `accExp`
expires at time 0, so at time 0 it is within the threshold, a refresh is
performed and the new endpoint-issued token is returned. -/
theorem C2_get_valid_token_spec_witness :
    GmailAccount.is_token_expiring accExp REFRESH_THRESHOLD_MINUTES 0 = true ∧
    (get_valid_token trivAead trivEnv nonceA 0 (.ok (['n'], none)) accExp []).2.2.2 = true ∧
    (get_valid_token trivAead trivEnv nonceA 0 (.ok (['n'], none)) accExp []).1 = .ok ['n'] := by
  have h := C2_get_valid_token_spec trivAead trivEnv trivKey nonceA 0
    (.ok (['n'], none)) accExp [] rfl rfl (by decide)
  have hexp : GmailAccount.is_token_expiring accExp REFRESH_THRESHOLD_MINUTES 0 = true := by
    decide
  refine ⟨hexp, ?_, ?_⟩
  · rw [h.1, hexp]
  · exact h.2.2 hexp ['r'] ['n'] none rfl rfl

/-- C5: a callback whose state differs from the CSRF state generated for
the flow fails with a CSRF error before the token exchange is reached,
regardless of the code value. -/
theorem C5_csrf_mismatch_rejected (csrf_state received_state code : String)
    (exchange : String → Except Unit String)
    (hne : received_state ≠ csrf_state) :
    authenticate_after_callback csrf_state received_state code exchange =
      (.error .csrfMismatch, false) := by
  unfold authenticate_after_callback
  rw [if_pos hne]

/-- Witness for C5 on closed inputs. -/
theorem C5_csrf_mismatch_rejected_witness :
    authenticate_after_callback "state-a" "state-b" "any-code"
      (fun c => .ok c) = (.error .csrfMismatch, false) :=
  C5_csrf_mismatch_rejected "state-a" "state-b" "any-code" (fun c => .ok c)
    (by decide)

/-- C7: evaluation at the failing input. Port selection in
`build_auth_url` never attempts a bind, so for every configuration it
returns the first port 8080 regardless of which ports are occupied;
with 8080 occupied and 8081 free the flow fails at the bind of
`start_local_server` instead of listening on 8081 as specified, and the
all-ports-exhausted error is unreachable. -/
theorem C7_port_selection_never_binds :
    (∀ cfg : OAuthConfig, ∀ occ : Nat → Bool,
      build_auth_url cfg = .ok 8080 ∧ occ 8080 = true →
        authenticate_listener_port cfg occ = .error "bind failed: port occupied") ∧
    build_auth_url cexConfig = .ok 8080 ∧
    authenticate_listener_port cexConfig occupied8080 =
      .error "bind failed: port occupied" ∧
    spec_first_free_port occupied8080 = some 8081 := by
  refine ⟨?_, rfl, rfl, rfl⟩
  intro cfg occ ⟨hb, ho⟩
  unfold authenticate_listener_port
  rw [hb]
  simp [start_local_server, ho]

/-- Helper: closed form of the probe loop over the outcomes of the four
possible attempts. -/
theorem ensure_network_available_eq (probe : Nat → Bool) :
    ensure_network_available probe =
      if probe 1 then (.ok false, [], 1)
      else if probe 2 then (.ok true, [1], 2)
      else if probe 3 then (.ok true, [1, 2], 3)
      else if probe 4 then (.ok true, [1, 2, 4], 4)
      else (.error (), [1, 2, 4], 4) := by
  cases h1 : probe 1 <;> cases h2 : probe 2 <;> cases h3 : probe 3 <;>
    cases h4 : probe 4 <;>
    simp [ensure_network_available, netLoop, h1, h2, h3, h4, MAX_ATTEMPTS,
      Nat.min_def]

/-- C8: across consecutive probe failures the sleeps are non-decreasing
(1, 2, 4 seconds, the doubling-capped-at-30 schedule cut by the attempt
ceiling), and the probe gives up with the network-unavailable error
exactly when all four attempts fail, after exactly 4 attempts. -/
theorem C8_probe_backoff_and_ceiling (probe : Nat → Bool) :
    List.Chain' (· ≤ ·) (ensure_network_available probe).2.1 ∧
    ((probe 1 = false ∧ probe 2 = false ∧ probe 3 = false ∧ probe 4 = false) →
      (ensure_network_available probe).1 = .error () ∧
      (ensure_network_available probe).2.2 = 4 ∧
      (ensure_network_available probe).2.1 = [1, 2, 4]) ∧
    ((ensure_network_available probe).1 = .error () →
      probe 1 = false ∧ probe 2 = false ∧ probe 3 = false ∧ probe 4 = false) := by
  rw [ensure_network_available_eq]
  cases h1 : probe 1 <;> cases h2 : probe 2 <;> cases h3 : probe 3 <;>
    cases h4 : probe 4 <;> simp

/-- Witness for C8 on closed inputs: the always-failing probe. -/
theorem C8_probe_backoff_and_ceiling_witness :
    (ensure_network_available (fun _ => false)).1 = .error () ∧
    (ensure_network_available (fun _ => false)).2.2 = 4 ∧
    (ensure_network_available (fun _ => false)).2.1 = [1, 2, 4] :=
  (C8_probe_backoff_and_ceiling (fun _ => false)).2.1 ⟨rfl, rfl, rfl, rfl⟩

/-- C6 counterexample: in a cycle over two healthy accounts the network
probe loop runs once per account, twice in total, not once per cycle as
claimed. -/
theorem C6_counterexample_probe_per_account :
    (sync_cycle twoGoodAccounts).2 = 2 ∧ ¬ (sync_cycle twoGoodAccounts).2 = 1 := by
  constructor <;>
    simp [sync_cycle, twoGoodAccounts, goodEnvA, goodEnvB, sync_account_info,
      ensure_network_available_eq, accA, accB, infoA, infoB]

/-- C6 amended: the reachability probe runs at the start of every
account sync, once per processed account; when the probe of the first
account fails entirely, exactly one error callback is emitted for that
account and the remaining accounts of the cycle are skipped. -/
theorem C6_probe_per_account_and_abort (pairs : List (GmailAccount × AccountEnv)) :
    (sync_cycle pairs).2 = (sync_cycle pairs).1.length ∧
    (∀ acc e more, pairs = (acc, e) :: more →
      (ensure_network_available e.probe).1 = .error () →
      sync_cycle pairs = ([(acc.email, .error .networkUnavailable)], 1)) := by
  constructor
  · induction pairs with
    | nil => rfl
    | cons p more ih =>
        obtain ⟨acc, e⟩ := p
        cases hsync : sync_account_info e.probe e.rest acc with
        | ok v =>
            obtain ⟨info, upd⟩ := v
            simp [sync_cycle, hsync, ih]
        | error err =>
            cases err with
            | networkUnavailable => simp [sync_cycle, hsync]
            | accountError => simp [sync_cycle, hsync, ih]
  · intro acc e more hp hnet
    subst hp
    have hs : sync_account_info e.probe e.rest acc = .error .networkUnavailable := by
      unfold sync_account_info
      rw [hnet]
    simp [sync_cycle, hs]

/-- Witness for C6 amended on closed inputs: a first account whose probe
always fails ends the cycle with exactly its error callback. -/
theorem C6_probe_per_account_and_abort_witness :
    sync_cycle [(accA, deadEnv), (accB, goodEnvB)] =
      ([("a@gmail.com", .error .networkUnavailable)], 1) :=
  (C6_probe_per_account_and_abort [(accA, deadEnv), (accB, goodEnvB)]).2
    accA deadEnv [(accB, goodEnvB)] rfl
    (by rw [ensure_network_available_eq]; rfl)

/-- Helper: upserting an already-present email keeps the list length. -/
theorem save_account_length_of_mem (account : GmailAccount) :
    ∀ l : List GmailAccount, (∃ a ∈ l, a.email = account.email) →
      (save_account account l).length = l.length := by
  intro l
  induction l with
  | nil => intro h; simp at h
  | cons a rest ih =>
      intro h
      by_cases he : a.email = account.email
      · simp [save_account, he]
      · have hr : ∃ b ∈ rest, b.email = account.email := by
          rcases h with ⟨b, hb, hbe⟩
          rcases List.mem_cons.mp hb with hb | hb
          · exact absurd (hb ▸ hbe) he
          · exact ⟨b, hb, hbe⟩
        simp [save_account, he, ih hr]

/-- Helper: upserting an already-present email preserves the number of
records matching that email. -/
theorem save_account_countP_of_mem (account : GmailAccount) :
    ∀ l : List GmailAccount, (∃ a ∈ l, a.email = account.email) →
      (save_account account l).countP (fun a => a.email == account.email) =
        l.countP (fun a => a.email == account.email) := by
  intro l
  induction l with
  | nil => intro h; simp at h
  | cons a rest ih =>
      intro h
      by_cases he : a.email = account.email
      · simp [save_account, he, List.countP_cons]
      · have hr : ∃ b ∈ rest, b.email = account.email := by
          rcases h with ⟨b, hb, hbe⟩
          rcases List.mem_cons.mp hb with hb | hb
          · exact absurd (hb ▸ hbe) he
          · exact ⟨b, hb, hbe⟩
        simp [save_account, he, List.countP_cons, ih hr]

/-- Helper: upserting an absent email appends the account. -/
theorem save_account_append_of_not_mem (account : GmailAccount) :
    ∀ l : List GmailAccount, (∀ a ∈ l, a.email ≠ account.email) →
      save_account account l = l ++ [account] := by
  intro l
  induction l with
  | nil => intro _; rfl
  | cons a rest ih =>
      intro h
      have he : a.email ≠ account.email := h a (by simp)
      have hr : ∀ b ∈ rest, b.email ≠ account.email := fun b hb =>
        h b (by simp [hb])
      simp [save_account, he, ih hr]

/-- C9: `save_account` with an email already present in storage replaces
that single record in place, keeping the list length and leaving exactly
one record with that email; with an absent email the account is appended. -/
theorem C9_save_account_upsert (account : GmailAccount) (l : List GmailAccount) :
    ((∃ a ∈ l, a.email = account.email) →
      (save_account account l).length = l.length) ∧
    (l.countP (fun a => a.email == account.email) = 1 →
      (save_account account l).countP (fun a => a.email == account.email) = 1) ∧
    ((∀ a ∈ l, a.email ≠ account.email) →
      save_account account l = l ++ [account]) := by
  refine ⟨save_account_length_of_mem account l, fun hc => ?_,
    save_account_append_of_not_mem account l⟩
  have hmem : ∃ a ∈ l, a.email = account.email := by
    have hpos : 0 < l.countP (fun a => a.email == account.email) := by omega
    rcases List.countP_pos_iff.mp hpos with ⟨a, ha, hpa⟩
    exact ⟨a, ha, by simpa using hpa⟩
  rw [save_account_countP_of_mem account l hmem, hc]

/-- Witness for C9 on closed inputs: replacing the single record of
`accExp`s email and appending a fresh email. -/
theorem C9_save_account_upsert_witness :
    (save_account accA [accA, accB]).length = 2 ∧
    (save_account accA [accA, accB]).countP (fun a => a.email == accA.email) = 1 ∧
    save_account accA [accB] = [accB, accA] := by
  have h1 := (C9_save_account_upsert accA [accA, accB]).1
    ⟨accA, by simp, rfl⟩
  have h2 := (C9_save_account_upsert accA [accA, accB]).2.1 (by decide)
  have h3 := (C9_save_account_upsert accA [accB]).2.2 (by decide)
  exact ⟨h1, h2, h3⟩

/-- C10: calling `start` while the running flag is set returns the state
unchanged, spawning nothing, and consequently any number of consecutive
`start` calls from a fresh engine spawns at most one periodic loop. -/
theorem C10_start_at_most_one_loop :
    (∀ e : SyncEngineState, e.running = true → e.start = e) ∧
    (∀ n : Nat, (SyncEngineState.start^[n] SyncEngineState.new).spawned ≤ 1) := by
  constructor
  · intro e he
    unfold SyncEngineState.start
    rw [if_pos he]
  · have key : ∀ n : Nat,
        SyncEngineState.start^[n] SyncEngineState.new = SyncEngineState.new ∨
        SyncEngineState.start^[n] SyncEngineState.new =
          { running := true, spawned := 1 } := by
      intro n
      induction n with
      | zero => left; rfl
      | succ n ih =>
          rw [Function.iterate_succ_apply']
          rcases ih with h | h <;> rw [h]
          · right; rfl
          · right; rfl
    intro n
    rcases key n with h | h
    · rw [h]
      decide
    · rw [h]

/-- Witness for C10 on closed inputs. -/
theorem C10_start_at_most_one_loop_witness :
    SyncEngineState.start { running := true, spawned := 2 } =
      { running := true, spawned := 2 } ∧
    (SyncEngineState.start^[3] SyncEngineState.new).spawned ≤ 1 :=
  ⟨C10_start_at_most_one_loop.1 { running := true, spawned := 2 } rfl,
   C10_start_at_most_one_loop.2 3⟩
